import Mathlib

/-!
The sample programs `TestCheck` (testC.c) and `printshape` (TestShape.c).

The repository ships two programs written in its C-flavoured source language.
This file embeds both of them:

* every function of the two programs is a Lean function of the same name, in a
  namespace named after the `Program` header (`TestCheck`, `printshape`);
  output is an explicit `String` threaded through every function that prints,
  and a loop is a fuel-bounded iteration that fails with `Fault.outOfFuel`
  when the fuel does not reach the loop's exit;
* the program text is also transcribed as a syntax tree (`TestCheck.program`,
  `printshape.program`) for the properties that speak about the text itself.

Integers are unbounded `Int`: the only arithmetic in the two programs is
`x + 1`, `t + 1`, `i + 1`, `count - 1`, `start - 1` and `count + 2`, each
guarded by a comparison that keeps the result between its operands' bounds
(`t + 1 ≤ max`, `count - 1 ≥ 0`) or applied to values below 30.
-/

/-! ## Runtime model -/

/-- Runtime values: the tagged union of the language's three value types and `Void`. -/
inductive Value where
  | int (i : Int)
  | char (c : Char)
  | str (s : String)
  | void
deriving DecidableEq, Repr

/-- Ways a run can stop without a result: a `print` whose verbs and arguments
disagree (the language's RuntimeError), or a loop that used up its fuel. -/
inductive Fault where
  | formatMismatch
  | outOfFuel
deriving DecidableEq, Repr

deriving instance DecidableEq for Except

/-- Modelled from the spec: the formatting done by the built-in `print`, which is
not defined in the sample programs. The format text is scanned left to right;
literal characters are copied, and each `%d`, `%c`, `%s` consumes the next
argument, which must be an Int, Char, String respectively; a verb without an
argument or with an argument of another type is a fault. -/
def format : List Char → List Value → Except Fault (List Char)
  | [], _ => .ok []
  | '%' :: 'd' :: rest, .int i :: args => (format rest args).map ((toString i).data ++ ·)
  | '%' :: 'd' :: _, _ => .error .formatMismatch
  | '%' :: 'c' :: rest, .char c :: args => (format rest args).map (c :: ·)
  | '%' :: 'c' :: _, _ => .error .formatMismatch
  | '%' :: 's' :: rest, .str s :: args => (format rest args).map (s.data ++ ·)
  | '%' :: 's' :: _, _ => .error .formatMismatch
  | c :: rest, args => (format rest args).map (c :: ·)

/-- Modelled from the spec: the built-in `print`, appending the formatted text
to the output stream and nothing else. -/
def print (fmt : String) (args : List Value) (out : String) : Except Fault String :=
  (format fmt.data args).map (fun l => out ++ String.mk l)

/-- The loop `while (cond) body`, run from state `s` with `fuel` evaluations of
the condition available. `seen` accumulates the states in which the body was
entered, in order; the result is that list together with the state in which
the condition was found false. -/
def whileLoop {σ : Type} (cond : σ → Bool) (body : σ → Except Fault σ) :
    Nat → List σ → σ → Except Fault (List σ × σ)
  | 0, _, _ => .error .outOfFuel
  | fuel + 1, seen, s =>
    if cond s then
      match body s with
      | .ok s' => whileLoop cond body fuel (seen ++ [s]) s'
      | .error e => .error e
    else .ok (seen, s)

/-- The loop `for (init; cond; step) body` after its `init` has run: each round
tests `cond`, runs `body`, then `step`. -/
def forLoop {σ : Type} (cond : σ → Bool) (body : σ → Except Fault σ)
    (step : σ → Except Fault σ) : Nat → List σ → σ → Except Fault (List σ × σ) :=
  whileLoop cond (fun s => body s >>= step)

/-! ## Program `TestCheck` (testC.c) -/

namespace TestCheck

/-- Function `int max(int x, int y, int z)`. -/
def max (x y z : Int) : Int :=
  if x > y then
    if x > z then x else z
  else
    if y > z then y else z

/-- Function `void printmyname(string name)`. -/
def printmyname (name : String) (out : String) : Except Fault String :=
  print "String is: %s" [.str name] out

/-- Function `void output()`. -/
def output (out : String) : Except Fault String :=
  printmyname "call within a function!\n" out

/-- Function `string makestring()`. -/
def makestring : String := "hello, there"

/-- Function `char getchar(char ch)`: a `switch` whose three arms each return;
the `break` after each `return` is never reached. -/
def getchar (ch : Char) : Char :=
  match ch with
  | 'a' => 'a'
  | 'd' => 'd'
  | _ => 'b'

/-- Variables of `loopcheck` while its loop runs: the local `x` and the output. -/
structure LoopcheckState where
  x : Int
  out : String
deriving DecidableEq, Repr

/-- Body of the `while` of `loopcheck`: `print("%d ", x); x = x + 1;`. -/
def loopcheckBody (s : LoopcheckState) : Except Fault LoopcheckState := do
  let out ← print "%d " [.int s.x] s.out
  pure { x := s.x + 1, out := out }

/-- The statements `int x = 0; while (x < 5) { ... }` of `loopcheck`, with the
states in which the body was entered. -/
def loopcheckLoop (fuel : Nat) (out : String) :
    Except Fault (List LoopcheckState × LoopcheckState) :=
  whileLoop (fun s => decide (s.x < 5)) loopcheckBody fuel [] { x := 0, out := out }

/-- Function `void loopcheck()`. -/
def loopcheck (fuel : Nat) (out : String) : Except Fault String :=
  (loopcheckLoop fuel out).map (fun r => r.2.out)

/-- Variables of `main` while its `for` loop runs: the loop variable `i` and the output. -/
structure MainState where
  i : Int
  out : String
deriving DecidableEq, Repr

/-- Body of the `for` of `main`: `printmyname("hello,"); print(" testing.. \n");`. -/
def mainForBody (s : MainState) : Except Fault MainState := do
  let out ← printmyname "hello," s.out
  let out ← print " testing.. \n" [] out
  pure { s with out := out }

/-- The loop `for (int i = 0; i < 3; i = i + 1) { ... }` of `main`, with the
states in which the body was entered. -/
def mainFor (fuel : Nat) (out : String) : Except Fault (List MainState × MainState) :=
  forLoop (fun s => decide (s.i < 3)) mainForBody (fun s => pure { s with i := s.i + 1 })
    fuel [] { i := 0, out := out }

/-- Function `int main()`. Its body has no `return`; the run ends when control
leaves the `for` loop, and the result is the output written. -/
def main (fuel : Nat) (out : String) : Except Fault String := do
  let out ← print "####################\n" [] out
  let out ← print "# Team FreeAssange #\n" [] out
  let out ← print "####################\n" [] out
  let out ← print "Max Value should be 4: %d\n" [.int (max 2 4 3)] out
  let out ← print "Char should be b: %c\n" [.char (getchar 'c')] out
  let out ← output out
  let out ← loopcheck fuel out
  let out ← print "\n" [] out
  let r ← mainFor fuel out
  pure r.2.out

end TestCheck

/-! ## Program `printshape` (TestShape.c) -/

namespace printshape

/-- Variables of `printrow` while its loop runs: the parameters, the local `t`
and the output. `count` is the callee's own copy of its argument. -/
structure RowState where
  max : Int
  index : Int
  count : Int
  t : Int
  out : String
deriving DecidableEq, Repr

/-- Body of the `while` of `printrow`. -/
def printrowBody (s : RowState) : Except Fault RowState := do
  let s ←
    if s.t < s.index then do
      let out ← print " " [] s.out
      pure { s with out := out }
    else
      if s.count > 0 then do
        let out ← print "*" [] s.out
        pure { s with out := out, count := s.count - 1 }
      else do
        let out ← print " " [] s.out
        pure { s with out := out }
  pure { s with t := s.t + 1 }

/-- The statements `int t = 0; while (t < max) { ... }` of `printrow`, with the
states in which the body was entered. -/
def printrowLoop (max index count : Int) (fuel : Nat) (out : String) :
    Except Fault (List RowState × RowState) :=
  whileLoop (fun s => decide (s.t < s.max)) printrowBody fuel []
    { max := max, index := index, count := count, t := 0, out := out }

/-- Function `void printrow(int max, int index, int count)`. -/
def printrow (max index count : Int) (fuel : Nat) (out : String) : Except Fault String :=
  (printrowLoop max index count fuel out).map (fun r => r.2.out)

/-- Variables of `main` while its `for` loop runs. `i` is declared without a
value and first assigned by the loop's `i = 0`. -/
structure MainState where
  i : Int
  start : Int
  count : Int
  out : String
deriving DecidableEq, Repr

/-- Body of the `for` of `main`. -/
def mainForBody (fuel : Nat) (s : MainState) : Except Fault MainState := do
  let out ← printrow 20 s.start s.count fuel s.out
  let out ← print "\n" [] out
  pure { s with out := out, start := s.start - 1, count := s.count + 2 }

/-- The statements `int start = 10; int count = 1; for (i = 0; i < 10; i = i + 1) { ... }`
of `main`, with the states in which the body was entered. -/
def mainFor (fuel : Nat) (out : String) : Except Fault (List MainState × MainState) :=
  forLoop (fun s => decide (s.i < 10)) (mainForBody fuel)
    (fun s => pure { s with i := s.i + 1 })
    fuel [] { i := 0, start := 10, count := 1, out := out }

/-- Function `int main()`. Its body has no `return`; the result is the output written. -/
def main (fuel : Nat) (out : String) : Except Fault String :=
  (mainFor fuel out).map (fun r => r.2.out)

/-- The characters written by `k` consecutive rounds of the loop of `printrow`
that start with the given `t`, `index` and `count`: one round of the body per
character, with the same tests as the body. -/
def rowChars : Nat → Int → Int → Int → List Char
  | 0, _, _, _ => []
  | k + 1, t, index, count =>
    if t < index then ' ' :: rowChars k (t + 1) index count
    else if count > 0 then '*' :: rowChars k (t + 1) index (count - 1)
    else ' ' :: rowChars k (t + 1) index count

/-- The first statement of the body of the `for` of `main`, run in the state of
`main`: the call `printrow(20, start, count)`. The callee receives the values
of `start` and `count`; of what it does, `main` sees the output only. -/
def mainForCall (fuel : Nat) (s : MainState) : Except Fault MainState := do
  let out ← printrow 20 s.start s.count fuel s.out
  pure { s with out := out }

/-- The statements after the call in the body of the `for` of `main`:
`print("\n"); start = start - 1; count = count + 2;`. -/
def mainForRest (s : MainState) : Except Fault MainState := do
  let out ← print "\n" [] s.out
  pure { s with out := out, start := s.start - 1, count := s.count + 2 }

/-- Line `i` of the pyramid as described: `10 - i` spaces, `2 i + 1` asterisks,
`9 - i` spaces and a newline. -/
def pyramidLine (i : Nat) : String :=
  String.mk (List.replicate (10 - i) ' ' ++ List.replicate (2 * i + 1) '*' ++
    List.replicate (9 - i) ' ' ++ ['\n'])

/-- The ten lines of the pyramid, line `0` first. -/
def pyramid : String :=
  String.join ((List.range 10).map pyramidLine)

end printshape

/-! ## Program text -/

/-- The language's types. -/
inductive Ty where
  | int
  | char
  | string
  | void
deriving DecidableEq, Repr

/-- The binary operators the two programs use. -/
inductive BinOp where
  | add
  | sub
  | lt
  | gt
deriving DecidableEq, Repr

/-- Expressions. -/
inductive Expr where
  | intLit (n : Int)
  | charLit (c : Char)
  | strLit (s : String)
  | var (name : String)
  | binary (op : BinOp) (lhs rhs : Expr)
  | assign (name : String) (value : Expr)
  | call (callee : String) (args : List Expr)
deriving Repr

/-- Statements. A `switch` holds its case groups in order, each a label
(`none` for `default`) and the statements under it. -/
inductive Stmt where
  | varDecl (ty : Ty) (name : String) (init : Option Expr)
  | expr (e : Expr)
  | block (body : List Stmt)
  | ifElse (cond : Expr) (thenS : Stmt) (elseS : Option Stmt)
  | while (cond : Expr) (body : Stmt)
  | for (init : Stmt) (cond : Expr) (step : Expr) (body : Stmt)
  | switch (scrutinee : Expr) (cases : List (Option Expr × List Stmt))
  | ret (value : Option Expr)
  | brk
deriving Repr

/-- A function declaration: return type, name, parameters in order, body. -/
structure FunDecl where
  ret : Ty
  name : String
  params : List (Ty × String)
  body : List Stmt
deriving Repr

/-- A program: the name of its `Program` header and its functions in order. -/
structure Program where
  name : String
  funs : List FunDecl
deriving Repr

namespace TestCheck

/-- Text of `max`, testC.c lines 3 to 20. -/
def maxDecl : FunDecl :=
  { ret := .int, name := "max", params := [(.int, "x"), (.int, "y"), (.int, "z")],
    body := [
      .ifElse (.binary .gt (.var "x") (.var "y"))
        (.block [
          .ifElse (.binary .gt (.var "x") (.var "z"))
            (.block [.ret (some (.var "x"))])
            (some (.block [.ret (some (.var "z"))]))])
        (some (.block [
          .ifElse (.binary .gt (.var "y") (.var "z"))
            (.block [.ret (some (.var "y"))])
            (some (.block [.ret (some (.var "z"))]))]))] }

/-- Text of `printmyname`, testC.c lines 22 to 24. -/
def printmynameDecl : FunDecl :=
  { ret := .void, name := "printmyname", params := [(.string, "name")],
    body := [.expr (.call "print" [.strLit "String is: %s", .var "name"])] }

/-- Text of `output`, testC.c lines 26 to 28. -/
def outputDecl : FunDecl :=
  { ret := .void, name := "output", params := [],
    body := [.expr (.call "printmyname" [.strLit "call within a function!\n"])] }

/-- Text of `makestring`, testC.c lines 30 to 32. -/
def makestringDecl : FunDecl :=
  { ret := .string, name := "makestring", params := [],
    body := [.ret (some (.strLit "hello, there"))] }

/-- Text of `getchar`, testC.c lines 34 to 47. -/
def getcharDecl : FunDecl :=
  { ret := .char, name := "getchar", params := [(.char, "ch")],
    body := [
      .switch (.var "ch") [
        (some (.charLit 'a'), [.ret (some (.charLit 'a')), .brk]),
        (some (.charLit 'd'), [.ret (some (.charLit 'd')), .brk]),
        (none, [.ret (some (.charLit 'b')), .brk])]] }

/-- Text of `loopcheck`, testC.c lines 49 to 55. -/
def loopcheckDecl : FunDecl :=
  { ret := .void, name := "loopcheck", params := [],
    body := [
      .varDecl .int "x" (some (.intLit 0)),
      .while (.binary .lt (.var "x") (.intLit 5))
        (.block [
          .expr (.call "print" [.strLit "%d ", .var "x"]),
          .expr (.assign "x" (.binary .add (.var "x") (.intLit 1)))])] }

/-- Text of `main`, testC.c lines 57 to 72. -/
def mainDecl : FunDecl :=
  { ret := .int, name := "main", params := [],
    body := [
      .expr (.call "print" [.strLit "####################\n"]),
      .expr (.call "print" [.strLit "# Team FreeAssange #\n"]),
      .expr (.call "print" [.strLit "####################\n"]),
      .expr (.call "print" [.strLit "Max Value should be 4: %d\n",
        .call "max" [.intLit 2, .intLit 4, .intLit 3]]),
      .expr (.call "print" [.strLit "Char should be b: %c\n",
        .call "getchar" [.charLit 'c']]),
      .expr (.call "output" []),
      .expr (.call "loopcheck" []),
      .expr (.call "print" [.strLit "\n"]),
      .for (.varDecl .int "i" (some (.intLit 0)))
        (.binary .lt (.var "i") (.intLit 3))
        (.assign "i" (.binary .add (.var "i") (.intLit 1)))
        (.block [
          .expr (.call "printmyname" [.strLit "hello,"]),
          .expr (.call "print" [.strLit " testing.. \n"])])] }

/-- Text of testC.c. -/
def program : Program :=
  { name := "TestCheck",
    funs := [maxDecl, printmynameDecl, outputDecl, makestringDecl, getcharDecl,
      loopcheckDecl, mainDecl] }

end TestCheck

namespace printshape

/-- Text of `printrow`, TestShape.c lines 3 to 22. -/
def printrowDecl : FunDecl :=
  { ret := .void, name := "printrow",
    params := [(.int, "max"), (.int, "index"), (.int, "count")],
    body := [
      .varDecl .int "t" (some (.intLit 0)),
      .while (.binary .lt (.var "t") (.var "max"))
        (.block [
          .ifElse (.binary .lt (.var "t") (.var "index"))
            (.block [.expr (.call "print" [.strLit " "])])
            (some (.block [
              .ifElse (.binary .gt (.var "count") (.intLit 0))
                (.block [
                  .expr (.call "print" [.strLit "*"]),
                  .expr (.assign "count" (.binary .sub (.var "count") (.intLit 1)))])
                (some (.block [.expr (.call "print" [.strLit " "])]))])),
          .expr (.assign "t" (.binary .add (.var "t") (.intLit 1)))])] }

/-- Text of `main`, TestShape.c lines 24 to 34. -/
def mainDecl : FunDecl :=
  { ret := .int, name := "main", params := [],
    body := [
      .varDecl .int "i" none,
      .varDecl .int "start" (some (.intLit 10)),
      .varDecl .int "count" (some (.intLit 1)),
      .for (.expr (.assign "i" (.intLit 0)))
        (.binary .lt (.var "i") (.intLit 10))
        (.assign "i" (.binary .add (.var "i") (.intLit 1)))
        (.block [
          .expr (.call "printrow" [.intLit 20, .var "start", .var "count"]),
          .expr (.call "print" [.strLit "\n"]),
          .expr (.assign "start" (.binary .sub (.var "start") (.intLit 1))),
          .expr (.assign "count" (.binary .add (.var "count") (.intLit 2)))])] }

/-- Text of TestShape.c. -/
def program : Program :=
  { name := "printshape", funs := [printrowDecl, mainDecl] }

end printshape

/-! ## Checks on the program text -/

mutual
/-- Every `return` statement in a statement, in source order, with its expression if any. -/
def Stmt.rets : Stmt → List (Option Expr)
  | .block b => Stmt.retsList b
  | .ifElse _ t none => t.rets
  | .ifElse _ t (some e) => t.rets ++ e.rets
  | .while _ b => b.rets
  | .for i _ _ b => i.rets ++ b.rets
  | .switch _ cs => Stmt.retsCases cs
  | .ret v => [v]
  | _ => []
/-- Every `return` statement in a statement list. -/
def Stmt.retsList : List Stmt → List (Option Expr)
  | [] => []
  | s :: ss => s.rets ++ Stmt.retsList ss
/-- Every `return` statement in the case groups of a `switch`. -/
def Stmt.retsCases : List (Option Expr × List Stmt) → List (Option Expr)
  | [] => []
  | (_, b) :: cs => Stmt.retsList b ++ Stmt.retsCases cs
end

mutual
/-- Whether control can never continue past the statement: a `return`, a
`break`, a block holding such a statement, or an `if` whose two branches both
are such. -/
def Stmt.exits : Stmt → Bool
  | .ret _ => true
  | .brk => true
  | .block b => Stmt.exitsList b
  | .ifElse _ t (some e) => t.exits && e.exits
  | _ => false
/-- Whether a statement list holds a statement past which control never continues. -/
def Stmt.exitsList : List Stmt → Bool
  | [] => false
  | s :: ss => s.exits || Stmt.exitsList ss
end

mutual
/-- The `return` statements of a statement that control can reach from its
start: in a statement list, those after a statement that `exits` are left out. -/
def Stmt.reachableRets : Stmt → List (Option Expr)
  | .block b => Stmt.reachableRetsList b
  | .ifElse _ t none => t.reachableRets
  | .ifElse _ t (some e) => t.reachableRets ++ e.reachableRets
  | .while _ b => b.reachableRets
  | .for i _ _ b => i.reachableRets ++ b.reachableRets
  | .switch _ cs => Stmt.reachableRetsCases cs
  | .ret v => [v]
  | _ => []
/-- The reachable `return` statements of a statement list. -/
def Stmt.reachableRetsList : List Stmt → List (Option Expr)
  | [] => []
  | s :: ss => if s.exits then s.reachableRets else s.reachableRets ++ Stmt.reachableRetsList ss
/-- The reachable `return` statements of the case groups of a `switch`; every
group can be entered at its label. -/
def Stmt.reachableRetsCases : List (Option Expr × List Stmt) → List (Option Expr)
  | [] => []
  | (_, b) :: cs => Stmt.reachableRetsList b ++ Stmt.reachableRetsCases cs
end

mutual
/-- The variables a statement declares, with their types. -/
def Stmt.decls : Stmt → List (String × Ty)
  | .varDecl ty x _ => [(x, ty)]
  | .block b => Stmt.declsList b
  | .ifElse _ t none => t.decls
  | .ifElse _ t (some e) => t.decls ++ e.decls
  | .while _ b => b.decls
  | .for i _ _ b => i.decls ++ b.decls
  | .switch _ cs => Stmt.declsCases cs
  | _ => []
/-- The variables a statement list declares. -/
def Stmt.declsList : List Stmt → List (String × Ty)
  | [] => []
  | s :: ss => s.decls ++ Stmt.declsList ss
/-- The variables the case groups of a `switch` declare. -/
def Stmt.declsCases : List (Option Expr × List Stmt) → List (String × Ty)
  | [] => []
  | (_, b) :: cs => Stmt.declsList b ++ Stmt.declsCases cs
end

/-- The variables visible in a function: its parameters, then its local declarations. -/
def FunDecl.vars (f : FunDecl) : List (String × Ty) :=
  f.params.map (fun p => (p.2, p.1)) ++ Stmt.declsList f.body

/-- The declared return type of the function a call names; the built-in
`print` returns nothing. -/
def Program.retOf (p : Program) (callee : String) : Option Ty :=
  if callee = "print" then some .void
  else (p.funs.find? (fun f => f.name = callee)).map (fun f => f.ret)

/-- The static type of an expression in a program, given the variables in
scope: literals have their own type, a variable its declared type, arithmetic
and comparison of two integers is an integer, an assignment has the type of its
value, a call the declared return type of its callee. -/
def Expr.typeOf (p : Program) (vars : List (String × Ty)) : Expr → Option Ty
  | .intLit _ => some .int
  | .charLit _ => some .char
  | .strLit _ => some .string
  | .var x => vars.lookup x
  | .binary _ a b =>
    match a.typeOf p vars, b.typeOf p vars with
    | some .int, some .int => some .int
    | some .char, some .char => some .int
    | _, _ => none
  | .assign _ e => e.typeOf p vars
  | .call f _ => p.retOf f

/-- Modelled from the spec: the return-consistency check of the semantic
checker, which is not part of the sources. A function declared with a non-void
type needs at least one reachable `return <expr>` whose expression has the
declared type; a void function must hold no `return <expr>`. -/
def FunDecl.returnConsistent (p : Program) (f : FunDecl) : Bool :=
  if f.ret = .void then
    (Stmt.retsList f.body).all (fun r => r.isNone)
  else
    (Stmt.reachableRetsList f.body).any (fun r =>
      match r with
      | some e => decide (e.typeOf p f.vars = some f.ret)
      | none => false)

/-- Modelled from the spec: a program passes the return-consistency check when
each of its functions does. -/
def Program.returnConsistent (p : Program) : Bool :=
  p.funs.all (fun f => f.returnConsistent p)

/-- The type of a runtime value. -/
def Value.ty : Value → Ty
  | .int _ => .int
  | .char _ => .char
  | .str _ => .string
  | .void => .void

/-- The verbs of a format text in order, each as the type of argument it takes;
the scan is that of `format`. -/
def verbs : List Char → List Ty
  | [] => []
  | '%' :: 'd' :: rest => .int :: verbs rest
  | '%' :: 'c' :: rest => .char :: verbs rest
  | '%' :: 's' :: rest => .string :: verbs rest
  | _ :: rest => verbs rest

mutual
/-- Every call in an expression, outermost first: callee and arguments. -/
def Expr.calls : Expr → List (String × List Expr)
  | .binary _ a b => a.calls ++ b.calls
  | .assign _ e => e.calls
  | .call f args => (f, args) :: Expr.callsList args
  | _ => []
/-- Every call in a list of expressions. -/
def Expr.callsList : List Expr → List (String × List Expr)
  | [] => []
  | e :: es => e.calls ++ Expr.callsList es
end

/-- Every call in an optional expression. -/
def Expr.callsOpt : Option Expr → List (String × List Expr)
  | none => []
  | some e => e.calls

mutual
/-- Every call in a statement, in source order. -/
def Stmt.calls : Stmt → List (String × List Expr)
  | .varDecl _ _ init => Expr.callsOpt init
  | .expr e => e.calls
  | .block b => Stmt.callsList b
  | .ifElse c t none => c.calls ++ t.calls
  | .ifElse c t (some e) => c.calls ++ t.calls ++ e.calls
  | .while c b => c.calls ++ b.calls
  | .for i c st b => i.calls ++ c.calls ++ st.calls ++ b.calls
  | .switch e cs => e.calls ++ Stmt.callsCases cs
  | .ret v => Expr.callsOpt v
  | .brk => []
/-- Every call in a statement list. -/
def Stmt.callsList : List Stmt → List (String × List Expr)
  | [] => []
  | s :: ss => s.calls ++ Stmt.callsList ss
/-- Every call in the case groups of a `switch`. -/
def Stmt.callsCases : List (Option Expr × List Stmt) → List (String × List Expr)
  | [] => []
  | (l, b) :: cs => Expr.callsOpt l ++ Stmt.callsList b ++ Stmt.callsCases cs
end

/-- The argument lists of the calls of `print` in a function, in source order. -/
def FunDecl.printCalls (f : FunDecl) : List (List Expr) :=
  ((Stmt.callsList f.body).filter (fun c => c.1 = "print")).map (fun c => c.2)

/-- A call of `print` agrees with its format: its first argument is a string
literal and the static types of the arguments after it are, in order, the types
the verbs of that literal take (so there are as many arguments as verbs). -/
def printCallOk (p : Program) (vars : List (String × Ty)) : List Expr → Bool
  | .strLit fmt :: rest => decide (rest.map (Expr.typeOf p vars) = (verbs fmt.data).map some)
  | _ => false

/-- Every call of `print` in the program agrees with its format. -/
def Program.printCallsOk (p : Program) : Bool :=
  p.funs.all (fun f => f.printCalls.all (printCallOk p f.vars))

/-- The functions of the program that a function calls, by name, in source
order; calls of the built-in `print` are not among them. -/
def Program.callees (p : Program) (f : FunDecl) : List String :=
  ((Stmt.callsList f.body).map (fun c => c.1)).filter
    (fun n => p.funs.any (fun g => g.name = n))

/-- The call graph: `a` calls `b` when `a` is a function of the program whose
body holds a call of the program's function `b`. -/
def Program.callsDirectly (p : Program) (a b : String) : Prop :=
  ∃ f ∈ p.funs, f.name = a ∧ b ∈ p.callees f

/-- A program is recursive when some function reaches itself through one or
more calls: its call graph has a cycle. -/
def Program.recursive (p : Program) : Prop :=
  ∃ a, Relation.TransGen p.callsDirectly a a

/-- The position of a function's declaration in the program text. -/
def Program.position (p : Program) (name : String) : Nat :=
  (p.funs.map (fun f => f.name)).indexOf name

/-! ## Theorems -/

/-! ### Loops and fuel -/

/-- A loop that reaches its exit with some fuel reaches the same exit with more. -/
theorem whileLoop_fuel_add {σ : Type} (cond : σ → Bool) (body : σ → Except Fault σ)
    (k : Nat) : ∀ (n : Nat) (seen : List σ) (s : σ) (r : List σ × σ),
    whileLoop cond body n seen s = .ok r → whileLoop cond body (n + k) seen s = .ok r := by
  intro n
  induction n with
  | zero => intro seen s r h; simp [whileLoop] at h
  | succ n ih =>
    intro seen s r h
    rw [Nat.add_right_comm]
    unfold whileLoop at h ⊢
    by_cases hc : cond s = true
    · simp only [hc, if_true] at h ⊢
      cases hb : body s with
      | error e => rw [hb] at h; simp at h
      | ok s' =>
        rw [hb] at h
        exact ih _ _ _ h
    · simp only [hc] at h ⊢
      exact h

theorem whileLoop_fuel_le {σ : Type} (cond : σ → Bool) (body : σ → Except Fault σ)
    {n m : Nat} (hnm : n ≤ m) {seen : List σ} {s : σ} {r : List σ × σ}
    (h : whileLoop cond body n seen s = .ok r) : whileLoop cond body m seen s = .ok r := by
  obtain ⟨k, rfl⟩ := Nat.exists_eq_add_of_le hnm
  exact whileLoop_fuel_add cond body k n seen s r h

theorem whileLoop_map_fuel_le {σ α : Type} (cond : σ → Bool) (body : σ → Except Fault σ)
    (f : List σ × σ → α) {n m : Nat} (hnm : n ≤ m) {seen : List σ} {s : σ} {v : α}
    (h : (whileLoop cond body n seen s).map f = .ok v) :
    (whileLoop cond body m seen s).map f = .ok v := by
  cases hr : whileLoop cond body n seen s with
  | error e => rw [hr] at h; cases h
  | ok r =>
    rw [whileLoop_fuel_le cond body hnm hr]
    rw [hr] at h
    exact h

/-! ### Faults -/

theorem except_map_ok {α β : Type} (f : α → β) (a : α) :
    (Except.ok a : Except Fault α).map f = .ok (f a) := rfl

theorem bind_ne_formatMismatch {α β : Type} (x : Except Fault α) (f : α → Except Fault β)
    (hx : x ≠ .error .formatMismatch) (hf : ∀ a, f a ≠ .error .formatMismatch) :
    (x >>= f) ≠ .error .formatMismatch := by
  cases x with
  | error e =>
    intro h
    have h' : (Except.error e : Except Fault β) = .error .formatMismatch := h
    exact hx (congrArg Except.error (Except.error.inj h'))
  | ok a => exact hf a

theorem map_ne_formatMismatch {α β : Type} (x : Except Fault α) (f : α → β)
    (hx : x ≠ .error .formatMismatch) : x.map f ≠ .error .formatMismatch := by
  cases x with
  | error e =>
    intro h
    have h' : (Except.error e : Except Fault β) = .error .formatMismatch := h
    exact hx (congrArg Except.error (Except.error.inj h'))
  | ok a =>
    intro h
    cases h

theorem pure_ne_formatMismatch {α : Type} (a : α) :
    (pure a : Except Fault α) ≠ .error .formatMismatch := by
  intro h
  cases h

/-- A loop whose body never faults on a format never faults on a format. -/
theorem whileLoop_ne_formatMismatch {σ : Type} (cond : σ → Bool) (body : σ → Except Fault σ)
    (hb : ∀ s, body s ≠ .error .formatMismatch) : ∀ (n : Nat) (seen : List σ) (s : σ),
    whileLoop cond body n seen s ≠ .error .formatMismatch := by
  intro n
  induction n with
  | zero =>
    intro seen s h
    cases h
  | succ n ih =>
    intro seen s
    unfold whileLoop
    by_cases hc : cond s = true
    · rw [if_pos hc]
      cases hbs : body s with
      | error e =>
        intro h
        have h' : (Except.error e : Except Fault (List σ × σ)) = .error .formatMismatch := h
        apply hb s
        rw [hbs]
        exact congrArg Except.error (Except.error.inj h')
      | ok s' => exact ih _ _
    · rw [if_neg hc]
      intro h
      cases h

/-- Arguments whose types are the verbs of the format, in order, are formatted
without a fault. -/
theorem format_ok_of_types (fmt : List Char) : ∀ (args : List Value),
    args.map Value.ty = verbs fmt → ∃ text, format fmt args = .ok text := by
  induction fmt using verbs.induct with
  | case1 => intro args _; exact ⟨[], by simp [format]⟩
  | case2 rest ih =>
    intro args h
    rw [verbs] at h
    match args, h with
    | .int i :: args, h =>
      rw [List.map_cons, List.cons.injEq] at h
      obtain ⟨text, ht⟩ := ih args h.2
      exact ⟨_, by rw [format, ht, except_map_ok]⟩
  | case3 rest ih =>
    intro args h
    rw [verbs] at h
    match args, h with
    | .char i :: args, h =>
      rw [List.map_cons, List.cons.injEq] at h
      obtain ⟨text, ht⟩ := ih args h.2
      exact ⟨_, by rw [format, ht, except_map_ok]⟩
  | case4 rest ih =>
    intro args h
    rw [verbs] at h
    match args, h with
    | .str i :: args, h =>
      rw [List.map_cons, List.cons.injEq] at h
      obtain ⟨text, ht⟩ := ih args h.2
      exact ⟨_, by rw [format, ht, except_map_ok]⟩
  | case5 c rest h1 h2 h3 ih =>
    intro args h
    rw [verbs] at h
    · obtain ⟨text, ht⟩ := ih args h
      refine ⟨c :: text, ?_⟩
      rw [format.eq_8, ht, except_map_ok]
      all_goals
        intros
        first
          | exact h1 _ (by assumption) (by assumption)
          | exact h2 _ (by assumption) (by assumption)
          | exact h3 _ (by assumption) (by assumption)
    · exact h1
    · exact h2
    · exact h3

theorem print_ok_of_types (fmt : String) (args : List Value) (out : String)
    (h : args.map Value.ty = verbs fmt.data) : ∃ out', print fmt args out = .ok out' := by
  obtain ⟨text, ht⟩ := format_ok_of_types fmt.data args h
  exact ⟨out ++ String.mk text, by rw [print, ht, except_map_ok]⟩

theorem print_ne_formatMismatch (fmt : String) (args : List Value) (out : String)
    (h : args.map Value.ty = verbs fmt.data) : print fmt args out ≠ .error .formatMismatch := by
  obtain ⟨out', ho⟩ := print_ok_of_types fmt args out h
  rw [ho]
  intro h
  cases h

/-! ### Call graph -/

/-- When every call goes to a function declared earlier, so does every chain of calls. -/
theorem calls_descend (p : Program)
    (h : ∀ f ∈ p.funs, ∀ b ∈ p.callees f, p.position b < p.position f.name) :
    ∀ a b, Relation.TransGen p.callsDirectly a b → p.position b < p.position a := by
  have step : ∀ a b, p.callsDirectly a b → p.position b < p.position a := by
    rintro a b ⟨f, hf, rfl, hb⟩
    exact h f hf b hb
  intro a b hab
  induction hab with
  | single hab => exact step _ _ hab
  | tail _ hbc ih => exact Nat.lt_trans (step _ _ hbc) ih

theorem not_recursive_of_descend (p : Program)
    (h : ∀ f ∈ p.funs, ∀ b ∈ p.callees f, p.position b < p.position f.name) :
    ¬ p.recursive := by
  rintro ⟨a, ha⟩
  exact Nat.lt_irrefl _ (calls_descend p h a a ha)

theorem testCheck_calls_earlier :
    ∀ f ∈ TestCheck.program.funs, ∀ b ∈ TestCheck.program.callees f,
      TestCheck.program.position b < TestCheck.program.position f.name := by
  decide

theorem printshape_calls_earlier :
    ∀ f ∈ printshape.program.funs, ∀ b ∈ printshape.program.callees f,
      printshape.program.position b < printshape.program.position f.name := by
  decide

/-! ### `TestCheck` -/

namespace TestCheck

theorem loopcheckLoop_six (out : String) :
    loopcheckLoop 6 out = .ok
      ([⟨0, out⟩, ⟨1, out ++ "0 "⟩, ⟨2, out ++ "0 " ++ "1 "⟩, ⟨3, out ++ "0 " ++ "1 " ++ "2 "⟩,
        ⟨4, out ++ "0 " ++ "1 " ++ "2 " ++ "3 "⟩],
       ⟨5, out ++ "0 " ++ "1 " ++ "2 " ++ "3 " ++ "4 "⟩) := rfl

theorem loopcheck_text (out : String) :
    out ++ "0 " ++ "1 " ++ "2 " ++ "3 " ++ "4 " = out ++ "0 1 2 3 4 " := by
  simp only [String.append_assoc]
  rfl

theorem loopcheckLoop_of_le {fuel : Nat} (h : 6 ≤ fuel) (out : String) :
    loopcheckLoop fuel out = .ok
      ([⟨0, out⟩, ⟨1, out ++ "0 "⟩, ⟨2, out ++ "0 " ++ "1 "⟩, ⟨3, out ++ "0 " ++ "1 " ++ "2 "⟩,
        ⟨4, out ++ "0 " ++ "1 " ++ "2 " ++ "3 "⟩],
       ⟨5, out ++ "0 1 2 3 4 "⟩) := by
  rw [← loopcheck_text]
  exact whileLoop_fuel_le _ _ h (loopcheckLoop_six out)

theorem loopcheck_of_le {fuel : Nat} (h : 6 ≤ fuel) (out : String) :
    loopcheck fuel out = .ok (out ++ "0 1 2 3 4 ") := by
  unfold loopcheck
  rw [loopcheckLoop_of_le h]
  rfl

theorem printmyname_ok (name out : String) : ∃ out', printmyname name out = .ok out' :=
  print_ok_of_types _ _ out rfl

theorem printmyname_ne (name out : String) : printmyname name out ≠ .error .formatMismatch :=
  print_ne_formatMismatch _ _ out rfl

theorem loopcheckBody_ne (s : LoopcheckState) : loopcheckBody s ≠ .error .formatMismatch :=
  bind_ne_formatMismatch _ _ (print_ne_formatMismatch _ _ _ rfl) (fun _ => pure_ne_formatMismatch _)

theorem loopcheck_ne (fuel : Nat) (out : String) :
    loopcheck fuel out ≠ .error .formatMismatch :=
  map_ne_formatMismatch _ _ (whileLoop_ne_formatMismatch _ _ loopcheckBody_ne _ _ _)

theorem mainForBody_ne (s : MainState) : mainForBody s ≠ .error .formatMismatch :=
  bind_ne_formatMismatch _ _ (printmyname_ne _ _) (fun _ =>
    bind_ne_formatMismatch _ _ (print_ne_formatMismatch _ _ _ rfl)
      (fun _ => pure_ne_formatMismatch _))

theorem mainFor_ne (fuel : Nat) (out : String) : mainFor fuel out ≠ .error .formatMismatch :=
  whileLoop_ne_formatMismatch _ _
    (fun s => bind_ne_formatMismatch _ _ (mainForBody_ne s) (fun _ => pure_ne_formatMismatch _))
    _ _ _

theorem main_ne (fuel : Nat) (out : String) : main fuel out ≠ .error .formatMismatch := by
  unfold main
  refine bind_ne_formatMismatch _ _ (print_ne_formatMismatch _ _ _ rfl) (fun out => ?_)
  refine bind_ne_formatMismatch _ _ (print_ne_formatMismatch _ _ _ rfl) (fun out => ?_)
  refine bind_ne_formatMismatch _ _ (print_ne_formatMismatch _ _ _ rfl) (fun out => ?_)
  refine bind_ne_formatMismatch _ _ (print_ne_formatMismatch _ _ _ rfl) (fun out => ?_)
  refine bind_ne_formatMismatch _ _ (print_ne_formatMismatch _ _ _ rfl) (fun out => ?_)
  refine bind_ne_formatMismatch _ _ (printmyname_ne _ _) (fun out => ?_)
  refine bind_ne_formatMismatch _ _ (loopcheck_ne _ _) (fun out => ?_)
  refine bind_ne_formatMismatch _ _ (print_ne_formatMismatch _ _ _ rfl) (fun out => ?_)
  exact bind_ne_formatMismatch _ _ (mainFor_ne _ _) (fun _ => pure_ne_formatMismatch _)

theorem mainFor_four (out : String) :
    mainFor 4 out = .ok
      ([⟨0, out⟩, ⟨1, out ++ "String is: hello," ++ " testing.. \n"⟩,
        ⟨2, out ++ "String is: hello," ++ " testing.. \n" ++ "String is: hello," ++
          " testing.. \n"⟩],
       ⟨3, out ++ "String is: hello," ++ " testing.. \n" ++ "String is: hello," ++
          " testing.. \n" ++ "String is: hello," ++ " testing.. \n"⟩) := rfl

theorem mainFor_text (out : String) :
    out ++ "String is: hello," ++ " testing.. \n" ++ "String is: hello," ++
      " testing.. \n" ++ "String is: hello," ++ " testing.. \n" =
    out ++ "String is: hello, testing.. \nString is: hello, testing.. \nString is: hello, testing.. \n" := by
  simp only [String.append_assoc]
  rfl

theorem mainFor_of_le {fuel : Nat} (h : 4 ≤ fuel) (out : String) :
    ∃ seen, mainFor fuel out = .ok (seen,
        ⟨3, out ++ "String is: hello, testing.. \nString is: hello, testing.. \nString is: hello, testing.. \n"⟩) ∧
      seen.map (fun s => s.i) = [0, 1, 2] := by
  rw [← mainFor_text]
  exact ⟨_, whileLoop_fuel_le _ _ h (mainFor_four out), rfl⟩

end TestCheck

/-! ### `printshape` -/

namespace printshape

theorem printrowBody_before (s : RowState) (h : s.t < s.index) :
    printrowBody s = .ok { s with out := s.out ++ " ", t := s.t + 1 } := by
  unfold printrowBody
  rw [if_pos h]
  rfl

theorem printrowBody_star (s : RowState) (h : ¬ s.t < s.index) (hc : s.count > 0) :
    printrowBody s = .ok { s with out := s.out ++ "*", count := s.count - 1, t := s.t + 1 } := by
  unfold printrowBody
  rw [if_neg h, if_pos hc]
  rfl

theorem printrowBody_after (s : RowState) (h : ¬ s.t < s.index) (hc : ¬ s.count > 0) :
    printrowBody s = .ok { s with out := s.out ++ " ", t := s.t + 1 } := by
  unfold printrowBody
  rw [if_neg h, if_neg hc]
  rfl

theorem append_cons (out : String) (c : Char) (l : List Char) :
    out ++ String.mk [c] ++ String.mk l = out ++ String.mk (c :: l) := by
  rw [String.append_assoc]
  rfl

/-- The loop of `printrow`, started in any state with more fuel than the
distance from `t` to `max`, ends normally after exactly that many rounds, having
appended the characters `rowChars` lists. -/
theorem printrow_whileLoop (k : Nat) : ∀ (n : Nat) (seen : List RowState) (s : RowState),
    (s.max - s.t).toNat = k → k < n →
    ∃ tr final, whileLoop (fun s => decide (s.t < s.max)) printrowBody n seen s
        = .ok (seen ++ tr, final) ∧
      tr.length = k ∧ final.out = s.out ++ String.mk (rowChars k s.t s.index s.count) := by
  induction k with
  | zero =>
    intro n seen s hk hn
    obtain ⟨n, rfl⟩ : ∃ m, n = m + 1 := ⟨n - 1, by omega⟩
    refine ⟨[], s, ?_, rfl, ?_⟩
    · unfold whileLoop
      have : ¬ s.t < s.max := by omega
      simp [this]
    · show s.out = s.out ++ ""
      simp
  | succ k ih =>
    intro n seen s hk hn
    obtain ⟨n, rfl⟩ : ∃ m, n = m + 1 := ⟨n - 1, by omega⟩
    have hlt : s.t < s.max := by omega
    unfold whileLoop
    simp only [hlt, decide_True, if_true]
    by_cases h1 : s.t < s.index
    · rw [printrowBody_before s h1]
      obtain ⟨tr, final, hrun, hlen, hout⟩ := ih n (seen ++ [s])
        { s with out := s.out ++ " ", t := s.t + 1 } (by simp only; omega) (by omega)
      refine ⟨s :: tr, final, ?_, by simp [hlen], ?_⟩
      · simpa using hrun
      · rw [hout]
        simp only [rowChars, if_pos h1]
        exact append_cons s.out ' ' _
    · by_cases h2 : s.count > 0
      · rw [printrowBody_star s h1 h2]
        obtain ⟨tr, final, hrun, hlen, hout⟩ := ih n (seen ++ [s])
          { s with out := s.out ++ "*", count := s.count - 1, t := s.t + 1 }
          (by simp only; omega) (by omega)
        refine ⟨s :: tr, final, ?_, by simp [hlen], ?_⟩
        · simpa using hrun
        · rw [hout]
          simp only [rowChars, if_neg h1, if_pos h2]
          exact append_cons s.out '*' _
      · rw [printrowBody_after s h1 h2]
        obtain ⟨tr, final, hrun, hlen, hout⟩ := ih n (seen ++ [s])
          { s with out := s.out ++ " ", t := s.t + 1 } (by simp only; omega) (by omega)
        refine ⟨s :: tr, final, ?_, by simp [hlen], ?_⟩
        · simpa using hrun
        · rw [hout]
          simp only [rowChars, if_neg h1, if_neg h2]
          exact append_cons s.out ' ' _

theorem printrowLoop_run (max index count : Int) (fuel : Nat) (out : String)
    (h : max.toNat < fuel) :
    ∃ tr final, printrowLoop max index count fuel out = .ok (tr, final) ∧
      tr.length = max.toNat ∧
      final.out = out ++ String.mk (rowChars max.toNat 0 index count) := by
  obtain ⟨tr, final, hrun, hlen, hout⟩ := printrow_whileLoop max.toNat fuel []
    { max := max, index := index, count := count, t := 0, out := out } (by simp) h
  exact ⟨tr, final, by simpa [printrowLoop] using hrun, hlen, hout⟩

theorem printrow_run (max index count : Int) (fuel : Nat) (out : String)
    (h : max.toNat < fuel) :
    printrow max index count fuel out
      = .ok (out ++ String.mk (rowChars max.toNat 0 index count)) := by
  obtain ⟨tr, final, hrun, -, hout⟩ := printrowLoop_run max index count fuel out h
  unfold printrow
  rw [hrun, ← hout]
  rfl

theorem rowChars_before (index count : Int) (m : Nat) : ∀ (k : Nat) (t : Int),
    t + k ≤ index →
    rowChars (k + m) t index count = List.replicate k ' ' ++ rowChars m (t + k) index count := by
  intro k
  induction k with
  | zero => intro t _; simp
  | succ k ih =>
    intro t h
    have h1 : t < index := by omega
    rw [Nat.add_right_comm, rowChars, if_pos h1, ih (t + 1) (by omega)]
    have e1 : t + 1 + (k : Int) = t + ((k + 1 : Nat) : Int) := by push_cast; ring
    rw [e1]
    rfl

theorem rowChars_star (index : Int) (m : Nat) : ∀ (k : Nat) (t count : Int),
    index ≤ t → (k : Int) ≤ count →
    rowChars (k + m) t index count
      = List.replicate k '*' ++ rowChars m (t + k) index (count - k) := by
  intro k
  induction k with
  | zero => intro t count _ _; simp
  | succ k ih =>
    intro t count h hc
    have h1 : ¬ t < index := by omega
    have h2 : count > 0 := by omega
    rw [Nat.add_right_comm, rowChars, if_neg h1, if_pos h2, ih (t + 1) (count - 1) (by omega)
      (by omega)]
    have e1 : t + 1 + (k : Int) = t + ((k + 1 : Nat) : Int) := by push_cast; ring
    have e2 : count - 1 - (k : Int) = count - ((k + 1 : Nat) : Int) := by push_cast; ring
    rw [e1, e2]
    rfl

theorem rowChars_after (index count : Int) (hc : count ≤ 0) : ∀ (k : Nat) (t : Int),
    index ≤ t → rowChars k t index count = List.replicate k ' ' := by
  intro k
  induction k with
  | zero => intro t _; rfl
  | succ k ih =>
    intro t h
    have h1 : ¬ t < index := by omega
    have h2 : ¬ count > 0 := by omega
    rw [rowChars, if_neg h1, if_neg h2, ih (t + 1) (by omega)]
    rfl

/-- Closed form of a row: `index` spaces, the asterisks that fit, spaces to the end. -/
theorem rowChars_row (max index count : Int) (h0 : 0 ≤ index) (h1 : index ≤ max)
    (hc : 0 ≤ count) :
    rowChars max.toNat 0 index count =
      List.replicate index.toNat ' ' ++
      List.replicate (min count (max - index)).toNat '*' ++
      List.replicate (max - index - min count (max - index)).toNat ' ' := by
  have e : max.toNat = index.toNat +
      ((min count (max - index)).toNat + (max - index - min count (max - index)).toNat) := by
    omega
  rw [e, rowChars_before index count _ index.toNat 0 (by omega),
    rowChars_star index _ (min count (max - index)).toNat _ count (by omega) (by omega)]
  by_cases hle : count ≤ max - index
  · rw [rowChars_after index _ (by omega) _ _ (by omega)]
    simp
  · have z : (max - index - min count (max - index)).toNat = 0 := by omega
    rw [z]
    simp [rowChars]

theorem rowChars_length : ∀ (k : Nat) (t index count : Int),
    (rowChars k t index count).length = k := by
  intro k
  induction k with
  | zero => intro t index count; rfl
  | succ k ih =>
    intro t index count
    rw [rowChars]
    split_ifs <;> simp [ih]

theorem rowChars_mem : ∀ (k : Nat) (t index count : Int) (c : Char),
    c ∈ rowChars k t index count → c = ' ' ∨ c = '*' := by
  intro k
  induction k with
  | zero => intro t index count c h; simp [rowChars] at h
  | succ k ih =>
    intro t index count c h
    rw [rowChars] at h
    split_ifs at h
    · rcases List.mem_cons.mp h with h | h
      · exact Or.inl h
      · exact ih _ _ _ _ h
    · rcases List.mem_cons.mp h with h | h
      · exact Or.inr h
      · exact ih _ _ _ _ h
    · rcases List.mem_cons.mp h with h | h
      · exact Or.inl h
      · exact ih _ _ _ _ h

/-- The loop of `printrow` once more, with the variables it ends with: `t` has
advanced by the number of rounds and the callee's `count` has gone down by one
for each asterisk written. -/
theorem printrow_whileLoop_final (k : Nat) : ∀ (n : Nat) (seen : List RowState) (s : RowState),
    (s.max - s.t).toNat = k → k < n →
    ∃ tr final, whileLoop (fun s => decide (s.t < s.max)) printrowBody n seen s
        = .ok (seen ++ tr, final) ∧
      tr.length = k ∧ final.out = s.out ++ String.mk (rowChars k s.t s.index s.count) ∧
      final.t = s.t + k ∧
      final.count = s.count - ((rowChars k s.t s.index s.count).count '*' : Nat) := by
  induction k with
  | zero =>
    intro n seen s hk hn
    obtain ⟨n, rfl⟩ : ∃ m, n = m + 1 := ⟨n - 1, by omega⟩
    refine ⟨[], s, ?_, rfl, ?_, by simp, by simp [rowChars]⟩
    · unfold whileLoop
      have : ¬ s.t < s.max := by omega
      simp [this]
    · show s.out = s.out ++ ""
      simp
  | succ k ih =>
    intro n seen s hk hn
    obtain ⟨n, rfl⟩ : ∃ m, n = m + 1 := ⟨n - 1, by omega⟩
    have hlt : s.t < s.max := by omega
    unfold whileLoop
    simp only [hlt, decide_True, if_true]
    by_cases h1 : s.t < s.index
    · rw [printrowBody_before s h1]
      obtain ⟨tr, final, hrun, hlen, hout, ht, hcount⟩ := ih n (seen ++ [s])
        { s with out := s.out ++ " ", t := s.t + 1 } (by simp only; omega) (by omega)
      refine ⟨s :: tr, final, by simpa using hrun, by simp [hlen], ?_, ?_, ?_⟩
      · rw [hout]
        simp only [rowChars, if_pos h1]
        exact append_cons s.out ' ' _
      · rw [ht]; push_cast; ring
      · rw [hcount]
        simp only [rowChars, if_pos h1]
        rw [List.count_cons_of_ne (by decide)]
    · by_cases h2 : s.count > 0
      · rw [printrowBody_star s h1 h2]
        obtain ⟨tr, final, hrun, hlen, hout, ht, hcount⟩ := ih n (seen ++ [s])
          { s with out := s.out ++ "*", count := s.count - 1, t := s.t + 1 }
          (by simp only; omega) (by omega)
        refine ⟨s :: tr, final, by simpa using hrun, by simp [hlen], ?_, ?_, ?_⟩
        · rw [hout]
          simp only [rowChars, if_neg h1, if_pos h2]
          exact append_cons s.out '*' _
        · rw [ht]; push_cast; ring
        · rw [hcount]
          simp only [rowChars, if_neg h1, if_pos h2]
          rw [List.count_cons_self]
          push_cast
          ring
      · rw [printrowBody_after s h1 h2]
        obtain ⟨tr, final, hrun, hlen, hout, ht, hcount⟩ := ih n (seen ++ [s])
          { s with out := s.out ++ " ", t := s.t + 1 } (by simp only; omega) (by omega)
        refine ⟨s :: tr, final, by simpa using hrun, by simp [hlen], ?_, ?_, ?_⟩
        · rw [hout]
          simp only [rowChars, if_neg h1, if_neg h2]
          exact append_cons s.out ' ' _
        · rw [ht]; push_cast; ring
        · rw [hcount]
          simp only [rowChars, if_neg h1, if_neg h2]
          rw [List.count_cons_of_ne (by decide)]

theorem printrowLoop_final (max index count : Int) (fuel : Nat) (out : String)
    (h : max.toNat < fuel) :
    ∃ tr final, printrowLoop max index count fuel out = .ok (tr, final) ∧
      tr.length = max.toNat ∧
      final.out = out ++ String.mk (rowChars max.toNat 0 index count) ∧
      final.t = max.toNat ∧
      final.count = count - ((rowChars max.toNat 0 index count).count '*' : Nat) := by
  obtain ⟨tr, final, hrun, hlen, hout, ht, hcount⟩ := printrow_whileLoop_final max.toNat fuel []
    { max := max, index := index, count := count, t := 0, out := out } (by simp) h
  exact ⟨tr, final, by simpa [printrowLoop] using hrun, hlen, hout, by simpa using ht, hcount⟩

theorem rowChars_stars (max index count : Int) (h0 : 0 ≤ index) (h1 : index ≤ max)
    (hc : 0 ≤ count) :
    (((rowChars max.toNat 0 index count).count '*' : Nat) : Int) = min count (max - index) := by
  rw [rowChars_row max index count h0 h1 hc]
  simp only [List.count_append, List.count_replicate]
  simp only [show ((' ' : Char) == '*') = false by decide, show (('*' : Char) == '*') = true by
    decide, if_true, Bool.false_eq_true, if_false]
  omega

/-- The call `printrow(20, start, count)` in `main`: with fuel for 21 tests it
returns, `main` continues with its own variables as they were, and the
callee's copy of `count` has gone down by the number of asterisks written. -/
theorem mainForCall_run (fuel : Nat) (h : 21 ≤ fuel) (s : MainState) :
    ∃ tr final, printrowLoop 20 s.start s.count fuel s.out = .ok (tr, final) ∧
      mainForCall fuel s = .ok { s with out := final.out } ∧
      final.count = s.count - ((rowChars 20 0 s.start s.count).count '*' : Nat) := by
  obtain ⟨tr, final, hrun, -, hout, -, hcount⟩ :=
    printrowLoop_final 20 s.start s.count fuel s.out (by simpa using h)
  refine ⟨tr, final, hrun, ?_, hcount⟩
  unfold mainForCall printrow
  rw [hrun]
  rfl

theorem mainForBody_split (fuel : Nat) (s : MainState) :
    mainForBody fuel s = mainForCall fuel s >>= mainForRest := by
  unfold mainForBody mainForCall
  cases printrow 20 s.start s.count fuel s.out with
  | error e => rfl
  | ok out => rfl

theorem printrowBody_ne (s : RowState) : printrowBody s ≠ .error .formatMismatch := by
  by_cases h : s.t < s.index
  · rw [printrowBody_before s h]
    intro h
    cases h
  · by_cases hc : s.count > 0
    · rw [printrowBody_star s h hc]
      intro h
      cases h
    · rw [printrowBody_after s h hc]
      intro h
      cases h

theorem printrow_ne (max index count : Int) (fuel : Nat) (out : String) :
    printrow max index count fuel out ≠ .error .formatMismatch :=
  map_ne_formatMismatch _ _ (whileLoop_ne_formatMismatch _ _ printrowBody_ne _ _ _)

theorem rowsBody_ne (fuel : Nat) (s : MainState) :
    mainForBody fuel s ≠ .error .formatMismatch :=
  bind_ne_formatMismatch _ _ (printrow_ne _ _ _ _ _) (fun _ =>
    bind_ne_formatMismatch _ _ (print_ne_formatMismatch _ _ _ rfl)
      (fun _ => pure_ne_formatMismatch _))

theorem rows_ne (fuel : Nat) (out : String) : main fuel out ≠ .error .formatMismatch :=
  map_ne_formatMismatch _ _ (whileLoop_ne_formatMismatch _ _
    (fun s => bind_ne_formatMismatch _ _ (rowsBody_ne fuel s)
      (fun _ => pure_ne_formatMismatch _)) _ _ _)

theorem mainForBody_fuel {fuel : Nat} (h : 21 ≤ fuel) : mainForBody fuel = mainForBody 21 := by
  funext s
  unfold mainForBody
  rw [printrow_run 20 s.start s.count fuel s.out (by simpa using h),
    printrow_run 20 s.start s.count 21 s.out (by simp)]

set_option maxRecDepth 1000000 in
theorem mainFor_twenty_one :
    (mainFor 21 "").map
        (fun r => (r.1.map (fun s => (s.i, s.start, s.count)), r.2.i, r.2.out)) =
      .ok ([(0, 10, 1), (1, 9, 3), (2, 8, 5), (3, 7, 7), (4, 6, 9), (5, 5, 11), (6, 4, 13),
        (7, 3, 15), (8, 2, 17), (9, 1, 19)], 10, pyramid) := by
  decide

theorem rows_of_le {fuel : Nat} (h : 21 ≤ fuel) :
    (mainFor fuel "").map
        (fun r => (r.1.map (fun s => (s.i, s.start, s.count)), r.2.i, r.2.out)) =
      .ok ([(0, 10, 1), (1, 9, 3), (2, 8, 5), (3, 7, 7), (4, 6, 9), (5, 5, 11), (6, 4, 13),
        (7, 3, 15), (8, 2, 17), (9, 1, 19)], 10, pyramid) := by
  unfold mainFor forLoop
  rw [mainForBody_fuel h]
  exact whileLoop_map_fuel_le _ _ _ h mainFor_twenty_one

theorem main_of_le {fuel : Nat} (h : 21 ≤ fuel) : main fuel "" = .ok pyramid := by
  have hm := rows_of_le h
  unfold main
  cases hr : mainFor fuel "" with
  | error e => rw [hr] at hm; cases hm
  | ok r =>
    rw [hr] at hm
    have h3 := congrArg (fun t => t.2.2) (Except.ok.inj hm)
    exact congrArg Except.ok h3

end printshape

/-- C1: `max(x, y, z)` of testC.c is one of its three arguments and is greater
than or equal to each of them; `max(2,4,3) = 4`. -/
theorem max_is_greatest (x y z : Int) :
    (TestCheck.max x y z = x ∨ TestCheck.max x y z = y ∨ TestCheck.max x y z = z) ∧
    x ≤ TestCheck.max x y z ∧ y ≤ TestCheck.max x y z ∧ z ≤ TestCheck.max x y z ∧
    TestCheck.max 2 4 3 = 4 := by
  refine ⟨?_, ?_, ?_, ?_, by decide⟩ <;> unfold TestCheck.max <;> split_ifs <;> omega

/-- C2: `getchar(ch)` of testC.c returns `'a'` for `'a'`, `'d'` for `'d'` and the
default `'b'` for every other character; `getchar('a') = 'a'`, `getchar('c') = 'b'`. -/
theorem getchar_cases (ch : Char) :
    (ch = 'a' → TestCheck.getchar ch = 'a') ∧
    (ch = 'd' → TestCheck.getchar ch = 'd') ∧
    (ch ≠ 'a' → ch ≠ 'd' → TestCheck.getchar ch = 'b') ∧
    TestCheck.getchar 'a' = 'a' ∧ TestCheck.getchar 'c' = 'b' := by
  refine ⟨?_, ?_, ?_, by decide, by decide⟩
  · rintro rfl; decide
  · rintro rfl; decide
  · intro ha hd
    unfold TestCheck.getchar
    split
    · exact absurd rfl ha
    · exact absurd rfl hd
    · rfl

/-- C3: with fuel for six tests of its condition, `loopcheck()` of testC.c ends
normally, having appended exactly `"0 1 2 3 4 "` to the output; its body was
entered exactly five times, with `x = 0, 1, 2, 3, 4` in this order, and the loop
is left with `x = 5`. -/
theorem loopcheck_prints_0_to_4 (fuel : Nat) (h : 6 ≤ fuel) (out : String) :
    TestCheck.loopcheck fuel out = .ok (out ++ "0 1 2 3 4 ") ∧
    ∃ seen final, TestCheck.loopcheckLoop fuel out = .ok (seen, final) ∧
      seen.map (fun s => s.x) = [0, 1, 2, 3, 4] ∧ seen.length = 5 ∧
      final.x = 5 ∧ final.out = out ++ "0 1 2 3 4 " :=
  ⟨TestCheck.loopcheck_of_le h out, _, _, TestCheck.loopcheckLoop_of_le h out, rfl, rfl, rfl, rfl⟩

theorem loopcheck_prints_0_to_4_witness :
    TestCheck.loopcheck 6 "" = .ok "0 1 2 3 4 " ∧
    ∃ seen final, TestCheck.loopcheckLoop 6 "" = .ok (seen, final) ∧
      seen.map (fun s => s.x) = [0, 1, 2, 3, 4] ∧ seen.length = 5 ∧
      final.x = 5 ∧ final.out = "0 1 2 3 4 " :=
  loopcheck_prints_0_to_4 6 (by decide) ""

/-- C7: `max` of testC.c gives the same result under every permutation of its
three arguments, equal arguments included. -/
theorem max_permutation_invariant (x y z : Int) :
    TestCheck.max x y z = TestCheck.max x z y ∧
    TestCheck.max x y z = TestCheck.max y x z ∧
    TestCheck.max x y z = TestCheck.max y z x ∧
    TestCheck.max x y z = TestCheck.max z x y ∧
    TestCheck.max x y z = TestCheck.max z y x ∧
    TestCheck.max x x z = TestCheck.max z x x ∧
    TestCheck.max x x x = x := by
  refine ⟨?_, ?_, ?_, ?_, ?_, ?_, ?_⟩ <;> unfold TestCheck.max <;> split_ifs <;> omega

/-- C4: with fuel for four tests of its condition, the `for` loop of `main` in
testC.c enters its body exactly three times, with `i = 0, 1, 2` in this order,
is left with `i = 3`, and has appended exactly three copies of the line
`String is: hello, testing.. ` and a newline to the output. -/
theorem main_for_runs_three_times (fuel : Nat) (h : 4 ≤ fuel) (out : String) :
    ∃ seen final, TestCheck.mainFor fuel out = .ok (seen, final) ∧
      seen.map (fun s => s.i) = [0, 1, 2] ∧ seen.length = 3 ∧ final.i = 3 ∧
      final.out = out ++ String.join (List.replicate 3 "String is: hello, testing.. \n") := by
  obtain ⟨seen, hrun, hseen⟩ := TestCheck.mainFor_of_le h out
  refine ⟨seen, _, hrun, hseen, ?_, rfl, rfl⟩
  have := congrArg List.length hseen
  simpa using this

theorem main_for_runs_three_times_witness :
    ∃ seen final, TestCheck.mainFor 4 "" = .ok (seen, final) ∧
      seen.map (fun s => s.i) = [0, 1, 2] ∧ seen.length = 3 ∧ final.i = 3 ∧
      final.out = "" ++ String.join (List.replicate 3 "String is: hello, testing.. \n") :=
  main_for_runs_three_times 4 (by decide) ""

set_option maxRecDepth 100000 in
/-- C5: with fuel for six tests of each loop condition, running `TestCheck` from
`main` on an empty output ends normally and the output is exactly the three
banner lines, `Max Value should be 4: 4`, `Char should be b: b`,
`String is: call within a function!`, `0 1 2 3 4 ` and three lines
`String is: hello, testing.. `, each line ended by one newline; the two values
printed are `max(2,4,3) = 4` and `getchar('c') = 'b'`. -/
theorem main_output_TestCheck (fuel : Nat) (h : 6 ≤ fuel) :
    TestCheck.main fuel "" = .ok
      ("####################\n" ++
       "# Team FreeAssange #\n" ++
       "####################\n" ++
       "Max Value should be 4: 4\n" ++
       "Char should be b: b\n" ++
       "String is: call within a function!\n" ++
       "0 1 2 3 4 \n" ++
       "String is: hello, testing.. \n" ++
       "String is: hello, testing.. \n" ++
       "String is: hello, testing.. \n") ∧
    TestCheck.max 2 4 3 = 4 ∧ TestCheck.getchar 'c' = 'b' := by
  refine ⟨?_, by decide, by decide⟩
  have h1 : ∀ out, TestCheck.loopcheck fuel out = .ok (out ++ "0 1 2 3 4 ") :=
    TestCheck.loopcheck_of_le h
  obtain ⟨seen, h2, -⟩ := TestCheck.mainFor_of_le (Nat.le_trans (by decide) h)
    ("####################\n# Team FreeAssange #\n####################\nMax Value should be 4: 4\nChar should be b: b\nString is: call within a function!\n0 1 2 3 4 \n")
  have h3 : TestCheck.main fuel "" =
      (TestCheck.mainFor fuel
        "####################\n# Team FreeAssange #\n####################\nMax Value should be 4: 4\nChar should be b: b\nString is: call within a function!\n0 1 2 3 4 \n").map
        (fun r => r.2.out) := by
    unfold TestCheck.main
    simp only [h1]
    rfl
  rw [h3, h2]
  rfl

set_option maxRecDepth 100000 in
theorem main_output_TestCheck_witness :
    TestCheck.main 6 "" = .ok
      ("####################\n" ++
       "# Team FreeAssange #\n" ++
       "####################\n" ++
       "Max Value should be 4: 4\n" ++
       "Char should be b: b\n" ++
       "String is: call within a function!\n" ++
       "0 1 2 3 4 \n" ++
       "String is: hello, testing.. \n" ++
       "String is: hello, testing.. \n" ++
       "String is: hello, testing.. \n") ∧
    TestCheck.max 2 4 3 = 4 ∧ TestCheck.getchar 'c' = 'b' :=
  main_output_TestCheck 6 (by decide)

set_option maxRecDepth 1000000 in
/-- C6: with fuel for 21 tests of each loop condition, running `printshape` from
`main` on an empty output ends normally and writes exactly ten lines, line `i`
being `10 - i` spaces, `2 i + 1` asterisks, `9 - i` spaces and a newline. Each
line is 20 characters wide before its newline; row `i` is the call
`printrow(20, 10 - i, 2 i + 1)` and holds all `2 i + 1` asterisks asked for
(none cut off at width 20), in columns `10 - i` to `10 + i`; the output holds
100 asterisks in all. -/
theorem main_output_printshape (fuel : Nat) (h : 21 ≤ fuel) :
    printshape.main fuel "" = .ok printshape.pyramid ∧
    printshape.pyramid.data.count '\n' = 10 ∧
    (printshape.mainFor fuel "").map
        (fun r => r.1.map (fun s => (s.i, s.start, s.count))) =
      .ok ((List.range 10).map (fun i : Nat => ((i : Int), 10 - (i : Int), 2 * (i : Int) + 1))) ∧
    (∀ i < 10, (printshape.pyramidLine i).length = 21 ∧
      (printshape.pyramidLine i).data.get? 20 = some '\n' ∧
      (printshape.pyramidLine i).data.count '*' = 2 * i + 1 ∧
      2 * i + 1 ≤ 20 - (10 - i) ∧
      ∀ c < 20, ((printshape.pyramidLine i).data.get? c = some '*' ↔ 10 - i ≤ c ∧ c ≤ 10 + i) ∧
        ((printshape.pyramidLine i).data.get? c = some ' ' ↔ ¬ (10 - i ≤ c ∧ c ≤ 10 + i))) ∧
    printshape.pyramid.data.count '*' = 100 := by
  refine ⟨printshape.main_of_le h, by decide, ?_, by decide, by decide⟩
  have hm := printshape.rows_of_le h
  cases hr : printshape.mainFor fuel "" with
  | error e => rw [hr] at hm; cases hm
  | ok r =>
    rw [hr] at hm
    have h1 := congrArg (fun t => t.1) (Except.ok.inj hm)
    exact congrArg Except.ok h1

theorem main_output_printshape_witness :
    printshape.main 21 "" = .ok printshape.pyramid ∧
    printshape.pyramid.data.count '\n' = 10 ∧
    (printshape.mainFor 21 "").map
        (fun r => r.1.map (fun s => (s.i, s.start, s.count))) =
      .ok ((List.range 10).map (fun i : Nat => ((i : Int), 10 - (i : Int), 2 * (i : Int) + 1))) ∧
    (∀ i < 10, (printshape.pyramidLine i).length = 21 ∧
      (printshape.pyramidLine i).data.get? 20 = some '\n' ∧
      (printshape.pyramidLine i).data.count '*' = 2 * i + 1 ∧
      2 * i + 1 ≤ 20 - (10 - i) ∧
      ∀ c < 20, ((printshape.pyramidLine i).data.get? c = some '*' ↔ 10 - i ≤ c ∧ c ≤ 10 + i) ∧
        ((printshape.pyramidLine i).data.get? c = some ' ' ↔ ¬ (10 - i ≤ c ∧ c ≤ 10 + i))) ∧
    printshape.pyramid.data.count '*' = 100 :=
  main_output_printshape 21 (by decide)

/-- C10: for `0 ≤ index ≤ max` and `count ≥ 0`, with more fuel than `max`,
`printrow(max, index, count)` of TestShape.c ends normally and appends exactly
`index` spaces, then `min(count, max - index)` asterisks, then
`max - index - min(count, max - index)` spaces. -/
theorem printrow_writes_row (max index count : Int) (fuel : Nat) (out : String)
    (h0 : 0 ≤ index) (h1 : index ≤ max) (hc : 0 ≤ count) (hf : max.toNat < fuel) :
    printshape.printrow max index count fuel out = .ok (out ++ String.mk
      (List.replicate index.toNat ' ' ++
       List.replicate (min count (max - index)).toNat '*' ++
       List.replicate (max - index - min count (max - index)).toNat ' ')) := by
  rw [printshape.printrow_run max index count fuel out hf,
    printshape.rowChars_row max index count h0 h1 hc]

theorem printrow_writes_row_witness :
    printshape.printrow 8 2 9 9 "|" = .ok ("|" ++ String.mk
      (List.replicate (2 : Int).toNat ' ' ++
       List.replicate (min (9 : Int) (8 - 2)).toNat '*' ++
       List.replicate ((8 : Int) - 2 - min 9 (8 - 2)).toNat ' ')) :=
  printrow_writes_row 8 2 9 9 "|" (by decide) (by decide) (by decide) (by decide)



/-- C8 fails as stated: `main` is declared `int` in both programs and its
body holds no `return` statement at all, so neither program passes the
return-consistency check. -/
theorem main_lacks_return :
    TestCheck.mainDecl.ret = .int ∧ (Stmt.retsList TestCheck.mainDecl.body).length = 0 ∧
    printshape.mainDecl.ret = .int ∧ (Stmt.retsList printshape.mainDecl.body).length = 0 ∧
    ¬ (TestCheck.program.returnConsistent = true ∧
       printshape.program.returnConsistent = true) := by
  decide

/-- C8, amended: in both programs every function other than `main` passes the
return-consistency check: `max`, `makestring` and `getchar` are declared `int`,
`string` and `char` and every reachable `return` of theirs (there is at least
one) carries an expression of the declared type; the void functions
`printmyname`, `output`, `loopcheck` and `printrow` hold no `return` statement.
`main`, declared `int` in both programs, holds no `return` statement and is the
one function of each program that does not pass. -/
theorem return_consistent_except_main :
    TestCheck.program.funs.map (fun f => (f.name, f.ret, f.returnConsistent TestCheck.program))
      = [("max", .int, true), ("printmyname", .void, true), ("output", .void, true),
         ("makestring", .string, true), ("getchar", .char, true), ("loopcheck", .void, true),
         ("main", .int, false)] ∧
    printshape.program.funs.map
        (fun f => (f.name, f.ret, f.returnConsistent printshape.program))
      = [("printrow", .void, true), ("main", .int, false)] ∧
    (∀ f ∈ TestCheck.program.funs ++ printshape.program.funs, f.ret = .void →
      (Stmt.retsList f.body).length = 0) ∧
    (∀ f ∈ TestCheck.program.funs, f.ret ≠ .void → f.name ≠ "main" →
      (Stmt.reachableRetsList f.body).length ≠ 0 ∧
      (Stmt.reachableRetsList f.body).length = (Stmt.retsList f.body).length ∧
      (Stmt.retsList f.body).all (fun r =>
        match r with
        | some e => decide (e.typeOf TestCheck.program f.vars = some f.ret)
        | none => false) = true) ∧
    (Stmt.retsList TestCheck.mainDecl.body).length = 0 ∧
    (Stmt.retsList printshape.mainDecl.body).length = 0 := by
  decide

/-- C9: every call of `print` in the text of the two programs (nine in testC.c,
four in TestShape.c) has a string literal as format whose verbs are, in number
and in order, the static types of the arguments after it; arguments of the
types the verbs ask for are printed without a fault whatever their values; and
no function of the two programs, run with any arguments, any fuel and any
output so far, ends in a format fault. -/
theorem print_calls_never_fault :
    TestCheck.program.printCallsOk = true ∧ printshape.program.printCallsOk = true ∧
    TestCheck.program.funs.map (fun f => (f.name, f.printCalls.length))
      = [("max", 0), ("printmyname", 1), ("output", 0), ("makestring", 0), ("getchar", 0),
         ("loopcheck", 1), ("main", 7)] ∧
    printshape.program.funs.map (fun f => (f.name, f.printCalls.length))
      = [("printrow", 3), ("main", 1)] ∧
    (∀ (fmt : String) (args : List Value) (out : String),
      args.map Value.ty = verbs fmt.data → ∃ out', print fmt args out = .ok out') ∧
    (∀ name out, ∃ out', TestCheck.printmyname name out = .ok out') ∧
    (∀ out, ∃ out', TestCheck.output out = .ok out') ∧
    (∀ s, TestCheck.loopcheckBody s ≠ .error .formatMismatch) ∧
    (∀ fuel out, TestCheck.loopcheck fuel out ≠ .error .formatMismatch) ∧
    (∀ fuel out, TestCheck.main fuel out ≠ .error .formatMismatch) ∧
    (∀ s, printshape.printrowBody s ≠ .error .formatMismatch) ∧
    (∀ max index count fuel out,
      printshape.printrow max index count fuel out ≠ .error .formatMismatch) ∧
    (∀ fuel out, printshape.main fuel out ≠ .error .formatMismatch) :=
  ⟨by decide, by decide, by decide, by decide, print_ok_of_types,
    TestCheck.printmyname_ok, fun out => TestCheck.printmyname_ok _ out,
    TestCheck.loopcheckBody_ne, TestCheck.loopcheck_ne, TestCheck.main_ne,
    printshape.printrowBody_ne, printshape.printrow_ne, printshape.rows_ne⟩

/-- C12: for all integers `max`, `index`, `count`, negative and zero included,
with more fuel than `max`, `printrow(max, index, count)` of TestShape.c ends
normally; the body of its `while` is entered exactly `max` times when `max > 0`
and not at all otherwise; and it appends exactly that many characters, each a
space or an asterisk. -/
theorem printrow_terminates (max index count : Int) (fuel : Nat) (out : String)
    (hf : max.toNat < fuel) :
    ∃ seen final chars,
      printshape.printrowLoop max index count fuel out = .ok (seen, final) ∧
      printshape.printrow max index count fuel out = .ok (out ++ String.mk chars) ∧
      (0 < max → (seen.length : Int) = max) ∧
      (max ≤ 0 → seen.length = 0) ∧
      chars.length = seen.length ∧
      (∀ c ∈ chars, c = ' ' ∨ c = '*') ∧ '\n' ∉ chars := by
  obtain ⟨tr, final, hrun, hlen, -⟩ := printshape.printrowLoop_run max index count fuel out hf
  refine ⟨tr, final, printshape.rowChars max.toNat 0 index count, hrun,
    printshape.printrow_run max index count fuel out hf, ?_, ?_, ?_, ?_, ?_⟩
  · intro h; rw [hlen]; omega
  · intro h; rw [hlen]; omega
  · rw [hlen, printshape.rowChars_length]
  · exact printshape.rowChars_mem _ _ _ _
  · intro h
    rcases printshape.rowChars_mem _ _ _ _ _ h with h | h <;> exact absurd h (by decide)

theorem printrow_terminates_witness :
    ∃ seen final chars,
      printshape.printrowLoop 3 (-1) 1 4 "|" = .ok (seen, final) ∧
      printshape.printrow 3 (-1) 1 4 "|" = .ok ("|" ++ String.mk chars) ∧
      (0 < (3 : Int) → (seen.length : Int) = 3) ∧
      ((3 : Int) ≤ 0 → seen.length = 0) ∧
      chars.length = seen.length ∧
      (∀ c ∈ chars, c = ' ' ∨ c = '*') ∧ '\n' ∉ chars :=
  printrow_terminates 3 (-1) 1 4 "|" (by decide)

/-- C11: arguments are passed by value in TestShape.c. With fuel for 21 tests of
each loop condition, every call `printrow(20, start, count)` made in any state
of `main` returns and leaves `i`, `start` and `count` of `main` as they were,
although the callee's own `count` ends lower by the number of asterisks it
wrote (it ends at `count - min(count, 20 - start)` when `0 ≤ start ≤ 20` and
`count ≥ 0`, so at `0`, not `2 i + 1`, in row `i` of `main`). The body of the
`for` is this call followed by the remaining statements, and it is entered ten
times, round `i` with `start = 10 - i` and `count = 2 i + 1`. -/
theorem printrow_call_by_value (fuel : Nat) (h : 21 ≤ fuel) :
    (∀ s : printshape.MainState, ∃ seen final,
      printshape.printrowLoop 20 s.start s.count fuel s.out = .ok (seen, final) ∧
      printshape.mainForCall fuel s
        = .ok { i := s.i, start := s.start, count := s.count, out := final.out } ∧
      (0 ≤ s.start → s.start ≤ 20 → 0 ≤ s.count →
        final.count = s.count - min s.count (20 - s.start)) ∧
      (0 ≤ s.i → s.i ≤ 9 → s.start = 10 - s.i → s.count = 2 * s.i + 1 →
        final.count = 0 ∧ s.count ≠ 0)) ∧
    (∀ s, printshape.mainForBody fuel s
      = printshape.mainForCall fuel s >>= printshape.mainForRest) ∧
    (printshape.mainFor fuel "").map
        (fun r => (r.1.map (fun s => (s.i, s.start, s.count)), r.2.i)) =
      .ok ((List.range 10).map
        (fun i : Nat => ((i : Int), 10 - (i : Int), 2 * (i : Int) + 1)), 10) := by
  refine ⟨fun s => ?_, printshape.mainForBody_split fuel, ?_⟩
  · obtain ⟨tr, final, hrun, hcall, hcount⟩ := printshape.mainForCall_run fuel h s
    have hclosed : 0 ≤ s.start → s.start ≤ 20 → 0 ≤ s.count →
        final.count = s.count - min s.count (20 - s.start) := by
      intro h0 h1 hc
      rw [hcount]
      have := printshape.rowChars_stars 20 s.start s.count h0 h1 hc
      simp only [show (20 : Int).toNat = 20 by rfl] at this
      rw [this]
    refine ⟨tr, final, hrun, hcall, hclosed, ?_⟩
    intro hi0 hi9 hs hc
    have := hclosed (by omega) (by omega) (by omega)
    constructor <;> omega
  · have hm := printshape.rows_of_le h
    cases hr : printshape.mainFor fuel "" with
    | error e => rw [hr] at hm; cases hm
    | ok r =>
      rw [hr] at hm
      have h1 := congrArg (fun t => (t.1, t.2.1)) (Except.ok.inj hm)
      exact congrArg Except.ok h1

theorem printrow_call_by_value_witness :
    (∀ s : printshape.MainState, ∃ seen final,
      printshape.printrowLoop 20 s.start s.count 21 s.out = .ok (seen, final) ∧
      printshape.mainForCall 21 s
        = .ok { i := s.i, start := s.start, count := s.count, out := final.out } ∧
      (0 ≤ s.start → s.start ≤ 20 → 0 ≤ s.count →
        final.count = s.count - min s.count (20 - s.start)) ∧
      (0 ≤ s.i → s.i ≤ 9 → s.start = 10 - s.i → s.count = 2 * s.i + 1 →
        final.count = 0 ∧ s.count ≠ 0)) ∧
    (∀ s, printshape.mainForBody 21 s
      = printshape.mainForCall 21 s >>= printshape.mainForRest) ∧
    (printshape.mainFor 21 "").map
        (fun r => (r.1.map (fun s => (s.i, s.start, s.count)), r.2.i)) =
      .ok ((List.range 10).map
        (fun i : Nat => ((i : Int), 10 - (i : Int), 2 * (i : Int) + 1)), 10) :=
  printrow_call_by_value 21 (by decide)

/-- C13 fails as stated: neither program is recursive; no function of testC.c
or TestShape.c reaches itself through one or more calls. -/
theorem no_function_is_recursive :
    ¬ (TestCheck.program.recursive ∨ printshape.program.recursive) := by
  rintro (h | h)
  · exact not_recursive_of_descend _ testCheck_calls_earlier h
  · exact not_recursive_of_descend _ printshape_calls_earlier h

/-- C13, amended: the two programs hold no recursion. In testC.c `main` calls
`max`, `getchar`, `output`, `loopcheck` and `printmyname`, `output` calls
`printmyname`, and the other functions call no function of the program; in
TestShape.c `main` calls `printrow` and `printrow` calls none. Every chain of
calls leads to a function declared earlier in the same file, so no function
reaches itself and both call graphs are free of cycles. -/
theorem calls_only_to_earlier_functions :
    TestCheck.program.funs.map (fun f => (f.name, TestCheck.program.callees f))
      = [("max", []), ("printmyname", []), ("output", ["printmyname"]), ("makestring", []),
         ("getchar", []), ("loopcheck", []),
         ("main", ["max", "getchar", "output", "loopcheck", "printmyname"])] ∧
    printshape.program.funs.map (fun f => (f.name, printshape.program.callees f))
      = [("printrow", []), ("main", ["printrow"])] ∧
    TestCheck.program.callsDirectly "main" "output" ∧
    TestCheck.program.callsDirectly "output" "printmyname" ∧
    printshape.program.callsDirectly "main" "printrow" ∧
    (∀ a b, Relation.TransGen TestCheck.program.callsDirectly a b →
      TestCheck.program.position b < TestCheck.program.position a) ∧
    (∀ a b, Relation.TransGen printshape.program.callsDirectly a b →
      printshape.program.position b < printshape.program.position a) ∧
    (∀ a, ¬ Relation.TransGen TestCheck.program.callsDirectly a a) ∧
    (∀ a, ¬ Relation.TransGen printshape.program.callsDirectly a a) :=
  ⟨by decide, by decide,
    ⟨TestCheck.mainDecl, by simp [TestCheck.program], rfl, by decide⟩,
    ⟨TestCheck.outputDecl, by simp [TestCheck.program], rfl, by decide⟩,
    ⟨printshape.mainDecl, by simp [printshape.program], rfl, by decide⟩,
    calls_descend _ testCheck_calls_earlier,
    calls_descend _ printshape_calls_earlier,
    fun a h => Nat.lt_irrefl _ (calls_descend _ testCheck_calls_earlier a a h),
    fun a h => Nat.lt_irrefl _ (calls_descend _ printshape_calls_earlier a a h)⟩
